import Mathlib

set_option maxHeartbeats 1000000

/-!
Verification development for the gitcom.dev server (`src/apps/server/app.ts`,
`src/apps/server/lib/github.ts`): a service that fetches GitHub pull-request
review comments, reviews and issue comments and renders them as markdown.

The embedding below translates the TypeScript source into Lean. External
collaborators (the tiktoken encoder, `Number.toLocaleString`,
`Date.toLocaleString`, `parseInt`, and the HTTP transport) are passed in as
function parameters, exactly at the seams where the source calls them.
JavaScript truthiness is modelled explicitly: the number 0, the empty string,
`null` and `undefined` are falsy; this matters because the source tests
`!comment.in_reply_to_id`, `comment.start_line && comment.line`,
`comment.side || "RIGHT"`, `if (review.body)`, `if (commentNumber)` and
`if (!token)` with JavaScript truthiness semantics.
-/

/-- From `lib/github.ts` interface SimpleUser (only the field the app reads). -/
structure SimpleUser where
  login : String
deriving DecidableEq, Repr

/-- From `lib/github.ts` interface PullRequestReviewComment, restricted to the
fields the app reads. `in_reply_to_id`, `start_line`, `line` are optional
numbers (`none` models both `undefined` and `null`); `side` is an optional
string; `pull_request_review_id` is `number | null`. -/
structure PullRequestReviewComment where
  id : Nat
  pull_request_review_id : Option Nat
  in_reply_to_id : Option Nat
  user : SimpleUser
  body : String
  created_at : String
  html_url : String
  path : String
  start_line : Option Nat
  line : Option Nat
  side : Option String
deriving DecidableEq, Repr

/-- From `lib/github.ts` interface PullRequestReview, restricted to the fields
the app reads. `body` is `string | null`. -/
structure PullRequestReview where
  id : Nat
  user : SimpleUser
  body : Option String
  state : String
  html_url : String
  submitted_at : String
deriving DecidableEq, Repr

/-- From `lib/github.ts` interface IssueComment, restricted to the fields the
app reads. -/
structure IssueComment where
  id : Nat
  user : SimpleUser
  body : String
  created_at : String
  html_url : String
deriving DecidableEq, Repr

/-- From `app.ts` interface FormattingOptions. `resolvedFilter` holds the raw
query-string value (`"true" | "false" | undefined`). -/
structure FormattingOptions where
  includeReviews : Bool
  showThreading : Bool
  resolvedFilter : Option String
deriving DecidableEq, Repr

/-- External collaborators of the renderer: `enc` is the tiktoken encoder
(`none` models the encoder throwing), `fmtNum` is `Number.toLocaleString`,
`fmtDate` is `new Date(s).toLocaleString()`. -/
structure Collab where
  enc : String → Option Nat
  fmtNum : Nat → String
  fmtDate : String → String

/-- The status/body pair the express handler produces (content type is the
same constant on every path and is omitted). -/
structure ServerResponse where
  status : Nat
  body : String
deriving DecidableEq, Repr

/-- One upstream HTTP exchange as seen by `lib/github.ts`: `ok`/`status`/
`statusText`, the error text read on failure, the decoded JSON `data` read on
success, and the `Link`-header continuation pointer (which the source never
reads). -/
structure GhResponse (α : Type) where
  ok : Bool
  status : Nat
  statusText : String
  errorText : String
  data : α
  nextLink : Option String

/-- JavaScript truthiness of an optional number: `undefined`, `null` and `0`
are falsy. -/
def jsTruthyN : Option Nat → Bool
  | none => false
  | some n => n ≠ 0

/-- JavaScript `x || d` for an optional string: `undefined` and `""` fall back
to the default. Models `comment.side || "RIGHT"`. -/
def jsOrDefault : Option String → String → String
  | none, d => d
  | some s, d => if s = "" then d else s

/-- JavaScript truthiness of an optional string: `undefined`, `null` and `""`
are falsy. Models `if (review.body)`. -/
def jsTruthyS : Option String → Bool
  | none => false
  | some s => s ≠ ""

/-- JavaScript `s.repeat(n)`; models the indent `"  ".repeat(depth)`. -/
def jsRepeat (s : String) (n : Nat) : String :=
  String.join (List.replicate n s)

/-- Template interpolation of an optional number (`undefined` prints as the
string "undefined", as in a JS template literal). -/
def jsNumStr : Option Nat → String
  | none => "undefined"
  | some n => toString n

/-- From `app.ts` function countTokens: encode with tiktoken and return the
token count; if the encoder throws, log and return 0. -/
def countTokens (E : Collab) (text : String) : Nat :=
  match E.enc text with
  | some n => n
  | none => 0

/-- The line-range block shared by all comment renderers in `app.ts`:
`**Lines:** a-b` when both `start_line` and `line` are truthy, `**Line:** b`
when only `line` is truthy, nothing otherwise; side defaults to RIGHT. -/
def lineInfo (indent : String) (c : PullRequestReviewComment) : String :=
  if jsTruthyN c.start_line ∧ jsTruthyN c.line then
    indent ++ "**Lines:** " ++ jsNumStr c.start_line ++ "-" ++ jsNumStr c.line ++
      " (" ++ jsOrDefault c.side "RIGHT" ++ " side)\n"
  else if jsTruthyN c.line then
    indent ++ "**Line:** " ++ jsNumStr c.line ++ " (" ++ jsOrDefault c.side "RIGHT" ++ " side)\n"
  else ""

/-- From `app.ts` formatCommentsAsMarkdown: the running total
`comments.reduce((sum, c) => sum + countTokens(c.body), 0)`. -/
def totalTokensFlat (E : Collab) (comments : List PullRequestReviewComment) : Nat :=
  comments.foldl (fun sum c => sum + countTokens E c.body) 0

/-- Header block of formatCommentsAsMarkdown (title, repository, comment
count, token total, rule). -/
def flatHeader (E : Collab) (owner repo : String) (pullRequestId : Int)
    (count totalTokens : Nat) : String :=
  ("# Pull Request #" ++ toString pullRequestId ++ " Comments\n\n" ++
   "**Repository:** " ++ owner ++ "/" ++ repo ++ "\n") ++
  ("**Total Comments:** " ++ toString count ++ "\n") ++
  ("**Total Tokens:** " ++ E.fmtNum totalTokens ++ "\n\n" ++ "---\n\n")

/-- One comment section of the flat renderer (the body of the
`comments.forEach((comment, index) => ...)` loop), with the trailing rule
emitted when `index < comments.length - 1`. -/
def flatSection (E : Collab) (total index : Nat) (c : PullRequestReviewComment) : String :=
  ("## Comment " ++ toString (index + 1) ++ "\n\n") ++
  ("**Author:** @" ++ c.user.login ++ "\n" ++
   "**Created:** " ++ E.fmtDate c.created_at ++ "\n" ++
   "**File:** `" ++ c.path ++ "`\n" ++
   lineInfo "" c ++
   "**[View on GitHub](" ++ c.html_url ++ ")**\n\n" ++
   "### Comment\n\n" ++ c.body ++ "\n\n" ++
   (if index < total - 1 then "---\n\n" else ""))

/-- The flat renderer loop: one section per comment with a running index
(this is the `forEach` of formatCommentsAsMarkdown, accumulated in order). -/
def commentSections (E : Collab) (total : Nat) : Nat → List PullRequestReviewComment → List String
  | _, [] => []
  | i, c :: cs => flatSection E total i c :: commentSections E total (i + 1) cs

/-- From `app.ts` function formatCommentsAsMarkdown. -/
def formatCommentsAsMarkdown (E : Collab) (owner repo : String) (pullRequestId : Int)
    (comments : List PullRequestReviewComment) : String :=
  let header := flatHeader E owner repo pullRequestId comments.length (totalTokensFlat E comments)
  if comments.length = 0 then
    header ++ "*No comments found for this pull request.*\n"
  else
    header ++ String.join (commentSections E comments.length 0 comments)

/-- From `app.ts` formatCommentsWithReviews: the root-comment scan
`comments.forEach(c => { if (!c.in_reply_to_id) rootComments.push(c) })`
(JavaScript falsiness: `undefined` and `0` both count as "no parent"). -/
def rootComments (comments : List PullRequestReviewComment) : List PullRequestReviewComment :=
  comments.filter (fun c => !jsTruthyN c.in_reply_to_id)

/-- From `app.ts` formatCommentsWithReviews:
`getReplies = (commentId) => comments.filter(c => c.in_reply_to_id === commentId)`. -/
def getReplies (comments : List PullRequestReviewComment) (commentId : Nat) :
    List PullRequestReviewComment :=
  comments.filter (fun c => c.in_reply_to_id = some commentId)

/-- The per-review grouping of root comments built by the `reviewGroups` map
in formatCommentsWithReviews: for each key, the map accumulates the root
comments with that `pull_request_review_id` in input order, which is exactly
an order-preserving filter of `rootComments`. -/
def groupFor (comments : List PullRequestReviewComment) (reviewId : Option Nat) :
    List PullRequestReviewComment :=
  (rootComments comments).filter (fun c => c.pull_request_review_id = reviewId)

/-- The header/metadata/blockquoted-body block that `formatCommentWithReplies`
emits for one comment at a given depth, before recursing into its replies. -/
def commentNodeStr (E : Collab) (c : PullRequestReviewComment) (depth : Nat) : String :=
  let indent := jsRepeat "  " depth
  (if depth = 0 then "## Comment " ++ toString c.id ++ "\n\n"
   else indent ++ "**↳ Reply**\n\n") ++
  (indent ++ "**Author:** @" ++ c.user.login ++ "\n" ++
   indent ++ "**Created:** " ++ E.fmtDate c.created_at ++ "\n" ++
   indent ++ "**File:** `" ++ c.path ++ "`\n" ++
   lineInfo indent c ++
   indent ++ "**[View on GitHub](" ++ c.html_url ++ ")**\n\n" ++
   indent ++ "> " ++ String.intercalate ("\n" ++ indent ++ "> ") (c.body.splitOn "\n") ++ "\n\n")

/-- From `app.ts` formatCommentsWithReviews: the recursive closure
`formatCommentWithReplies(comment, depth)`. The source recursion has no
depth bound; `fuel` bounds the recursion depth so the Lean function is total
(at fuel 0 the replies of the node are not rendered). The termination theorems
below show when the result is independent of the fuel, and the C9
counterexample shows an input on which the source recursion diverges. -/
def formatCommentWithReplies (E : Collab) (comments : List PullRequestReviewComment) :
    Nat → PullRequestReviewComment → Nat → String
  | 0, c, depth => commentNodeStr E c depth
  | fuel + 1, c, depth =>
    commentNodeStr E c depth ++
      String.join ((getReplies comments c.id).map
        (fun reply => formatCommentWithReplies E comments fuel reply (depth + 1)))

/-- Header block of formatCommentsWithReviews (title, repository, review
count, comment count, token total, rule). -/
def wrHeader (E : Collab) (owner repo : String) (pullRequestId : Int)
    (nReviews nComments totalTokens : Nat) : String :=
  ("# Pull Request #" ++ toString pullRequestId ++ " Comments\n\n" ++
   "**Repository:** " ++ owner ++ "/" ++ repo ++ "\n" ++
   "**Total Reviews:** " ++ toString nReviews ++ "\n") ++
  ("**Total Comments:** " ++ toString nComments ++ "\n") ++
  ("**Total Tokens:** " ++ E.fmtNum totalTokens ++ "\n\n" ++ "---\n\n")

/-- From `app.ts` formatCommentsWithReviews: the token total accumulated over
the truthy review bodies and then over all comment bodies. -/
def totalTokensWR (E : Collab) (reviews : List PullRequestReview)
    (comments : List PullRequestReviewComment) : Nat :=
  comments.foldl (fun sum c => sum + countTokens E c.body)
    (reviews.foldl
      (fun sum rv => if jsTruthyS rv.body then sum + countTokens E (rv.body.getD "") else sum) 0)

/-- One review section of the threaded-with-reviews branch: review header,
optional review body, the grouped root-comment trees each followed by a rule,
and a closing rule. -/
def threadedReviewSection (E : Collab) (comments : List PullRequestReviewComment)
    (displayIndex : Nat) (rv : PullRequestReview) : String :=
  ("## Review " ++ toString displayIndex ++ " - " ++ rv.state ++ "\n\n" ++
   "**Author:** @" ++ rv.user.login ++ "\n" ++
   "**Submitted:** " ++ E.fmtDate rv.submitted_at ++ "\n" ++
   "**[View on GitHub](" ++ rv.html_url ++ ")**\n\n") ++
  (if jsTruthyS rv.body then "### Review Comment\n\n" ++ rv.body.getD "" ++ "\n\n" else "") ++
  (let g := groupFor comments (some rv.id)
   if g.length ≠ 0 then
     "### Code Comments (" ++ toString g.length ++ ")\n\n" ++
       String.join (g.map (fun c =>
         formatCommentWithReplies E comments comments.length c 0 ++ "---\n\n"))
   else "") ++
  "---\n\n"

/-- The `reviews.forEach` loop of the threaded-with-reviews branch, carrying
the 1-based `reviewIndex` counter. -/
def threadedReviewSections (E : Collab) (comments : List PullRequestReviewComment) :
    Nat → List PullRequestReview → String
  | _, [] => ""
  | idx, rv :: rest =>
    threadedReviewSection E comments idx rv ++ threadedReviewSections E comments (idx + 1) rest

/-- The orphaned-comments block of the threaded-with-reviews branch: the root
comments with `pull_request_review_id === null`, rendered under the
Standalone Comments heading (omitted when the group is empty). -/
def standaloneSection (E : Collab) (comments : List PullRequestReviewComment) : String :=
  let orphaned := groupFor comments none
  if orphaned.length ≠ 0 then
    "## Standalone Comments\n\n" ++
      String.join (orphaned.map (fun c =>
        formatCommentWithReplies E comments comments.length c 0 ++ "---\n\n"))
  else ""

/-- The threading-without-reviews branch: each root-comment tree, separated by
rules (`index < rootComments.length - 1`). -/
def threadedRootsOnlyAux (E : Collab) (comments : List PullRequestReviewComment)
    (total : Nat) : Nat → List PullRequestReviewComment → String
  | _, [] => ""
  | i, c :: cs =>
    formatCommentWithReplies E comments comments.length c 0 ++
      (if i < total - 1 then "---\n\n" else "") ++
      threadedRootsOnlyAux E comments total (i + 1) cs

/-- The threading-without-reviews branch over all root comments. -/
def threadedRootsOnly (E : Collab) (comments : List PullRequestReviewComment) : String :=
  let roots := rootComments comments
  threadedRootsOnlyAux E comments roots.length 0 roots

/-- One review section of the flat (no-threading) branch, with the separator
rule emitted when `index < reviews.length - 1 || comments.length > 0`. -/
def flatReviewSection (E : Collab) (nReviews nComments index : Nat)
    (rv : PullRequestReview) : String :=
  ("## Review " ++ toString (index + 1) ++ " - " ++ rv.state ++ "\n\n" ++
   "**Author:** @" ++ rv.user.login ++ "\n" ++
   "**Submitted:** " ++ E.fmtDate rv.submitted_at ++ "\n" ++
   "**[View on GitHub](" ++ rv.html_url ++ ")**\n\n") ++
  (if jsTruthyS rv.body then "### Comment\n\n" ++ rv.body.getD "" ++ "\n\n" else "") ++
  (if index < nReviews - 1 ∨ 0 < nComments then "---\n\n" else "")

/-- The `reviews.forEach` loop of the flat branch. -/
def flatReviewSections (E : Collab) (nReviews nComments : Nat) :
    Nat → List PullRequestReview → String
  | _, [] => ""
  | i, rv :: rest =>
    flatReviewSection E nReviews nComments i rv ++ flatReviewSections E nReviews nComments (i + 1) rest

/-- From `app.ts` function formatCommentsWithReviews. -/
def formatCommentsWithReviews (E : Collab) (owner repo : String) (pullRequestId : Int)
    (reviews : List PullRequestReview) (comments : List PullRequestReviewComment)
    (options : FormattingOptions) : String :=
  let header := wrHeader E owner repo pullRequestId reviews.length comments.length
    (totalTokensWR E reviews comments)
  if reviews.length = 0 ∧ comments.length = 0 then
    header ++ "*No reviews or comments found for this pull request.*\n"
  else if options.showThreading then
    if options.includeReviews ∧ reviews.length ≠ 0 then
      header ++ threadedReviewSections E comments 1 reviews ++ standaloneSection E comments
    else
      header ++ threadedRootsOnly E comments
  else
    header ++
      (if options.includeReviews ∧ reviews.length ≠ 0 then
        flatReviewSections E reviews.length comments.length 0 reviews
      else "") ++
      String.join (commentSections E comments.length 0 comments)

/-- The reply forest the threaded renderer walks (the Comment Thread
Assembler of the design): one node per rendered comment together with the
trees of its rendered replies. -/
inductive CTree where
  | node (c : PullRequestReviewComment) (children : List CTree)
deriving Repr

/-- The tree of comments visited by `formatCommentWithReplies` starting at
`c`: the children of a node are `getReplies` of its id, in input order.
`fuel` bounds the recursion depth exactly as in `formatCommentWithReplies`. -/
def buildTree (comments : List PullRequestReviewComment) :
    Nat → PullRequestReviewComment → CTree
  | 0, c => .node c []
  | fuel + 1, c => .node c ((getReplies comments c.id).map (buildTree comments fuel))

/-- The comment at the root of a thread tree. -/
def rootOf : CTree → PullRequestReviewComment
  | .node c _ => c

mutual

/-- All comments of a thread tree, in rendering order. -/
def flattenTree : CTree → List PullRequestReviewComment
  | .node c ts => c :: flattenForest ts

/-- All comments of a list of thread trees, in rendering order. -/
def flattenForest : List CTree → List PullRequestReviewComment
  | [] => []
  | t :: ts => flattenTree t ++ flattenForest ts

end

mutual

/-- `edgeInTree t p c`: somewhere in `t` there is a node carrying `p` one of
whose immediate children carries `c`. -/
def edgeInTree (t : CTree) (p c : PullRequestReviewComment) : Bool :=
  match t with
  | .node a ts => (decide (a = p) && decide (c ∈ ts.map rootOf)) || edgeInForest ts p c

/-- `edgeInForest ts p c`: the edge `p → c` occurs in one of the trees. -/
def edgeInForest (ts : List CTree) (p c : PullRequestReviewComment) : Bool :=
  match ts with
  | [] => false
  | t :: ts => edgeInTree t p c || edgeInForest ts p c

end

mutual

/-- Rendering a pre-assembled thread tree: the node block at its depth
followed by the rendered children one level deeper. `formatCommentWithReplies`
is proved below to factor through `buildTree` and this function. -/
def treeStr (E : Collab) : CTree → Nat → String
  | .node c ts, depth => commentNodeStr E c depth ++ forestStr E ts (depth + 1)

/-- Rendering a list of thread trees in order at a common depth. -/
def forestStr (E : Collab) : List CTree → Nat → String
  | [], _ => ""
  | t :: ts, depth => treeStr E t depth ++ forestStr E ts depth

end

/-- The thread trees grown from a list of root comments, with the fuel
`comments.length` used by every call site in the renderer. -/
def threadForest (comments roots : List PullRequestReviewComment) : List CTree :=
  roots.map (buildTree comments comments.length)

/-- All thread trees the threaded-with-reviews branch renders: for each
review in input order the trees of its grouped roots, then the trees of the
standalone group. -/
def allTrees (reviews : List PullRequestReview)
    (comments : List PullRequestReviewComment) : List CTree :=
  (reviews.map (fun rv => threadForest comments (groupFor comments (some rv.id)))).flatten ++
    threadForest comments (groupFor comments none)

/-- Every comment the threaded-with-reviews branch renders, in order:
first the comments of the review sections, then the standalone section. -/
def renderedComments (reviews : List PullRequestReview)
    (comments : List PullRequestReviewComment) : List PullRequestReviewComment :=
  flattenForest (allTrees reviews comments)

/-- Every comment the threading-without-reviews branch renders: the trees of
all root comments, in order. -/
def renderedNoReviews (comments : List PullRequestReviewComment) :
    List PullRequestReviewComment :=
  flattenForest (threadForest comments (rootComments comments))

/-- The ancestor chain invariant of the threaded recursion: a list
`x :: path` is linked when each element is a reply to the next (its
`in_reply_to_id` is `some` of the next id) and the last element is a root
(JS-falsy `in_reply_to_id`). -/
inductive Linked : List PullRequestReviewComment → Prop where
  | nil : Linked []
  | single (x : PullRequestReviewComment) :
      jsTruthyN x.in_reply_to_id = false → Linked [x]
  | cons (x y : PullRequestReviewComment) (l : List PullRequestReviewComment) :
      x.in_reply_to_id = some y.id → Linked (y :: l) → Linked (x :: y :: l)

/-- The comments endpoint URL built by `fetchPullRequestComments`. -/
def prCommentsUrl (owner repo : String) (pullRequestId : Int) : String :=
  "https://api.github.com/repos/" ++ owner ++ "/" ++ repo ++ "/pulls/" ++
    toString pullRequestId ++ "/comments"

/-- The reviews endpoint URL built by `fetchPullRequestReviews`. -/
def prReviewsUrl (owner repo : String) (pullRequestId : Int) : String :=
  "https://api.github.com/repos/" ++ owner ++ "/" ++ repo ++ "/pulls/" ++
    toString pullRequestId ++ "/reviews"

/-- The issue-comments endpoint URL built by `fetchIssueComments`. -/
def issueCommentsUrl (owner repo : String) (issueNumber : Int) : String :=
  "https://api.github.com/repos/" ++ owner ++ "/" ++ repo ++ "/issues/" ++
    toString issueNumber ++ "/comments"

/-- The error text thrown on a non-ok upstream response, from
`lib/github.ts`. -/
def ghFailText {α : Type} (r : GhResponse α) : String :=
  "GitHub API request failed: " ++ toString r.status ++ " " ++ r.statusText ++ "\n" ++ r.errorText

/-- From `lib/github.ts` fetchPullRequestComments (also reached through
`GitHubClient.getPullRequestComments`): build the URL, issue ONE GET through
the transport `http`, throw on a non-ok status, otherwise return the decoded
body. The source issues no further request and never reads the `Link`
continuation header. -/
def fetchPullRequestComments
    (http : String → GhResponse (List PullRequestReviewComment))
    (owner repo : String) (pullRequestId : Int) :
    Except String (List PullRequestReviewComment) :=
  let response := http (prCommentsUrl owner repo pullRequestId)
  if response.ok then .ok response.data else .error (ghFailText response)

/-- From `lib/github.ts` fetchPullRequestReviews (also reached through
`GitHubClient.getPullRequestReviews`): one GET, no pagination. -/
def fetchPullRequestReviews
    (http : String → GhResponse (List PullRequestReview))
    (owner repo : String) (pullRequestId : Int) :
    Except String (List PullRequestReview) :=
  let response := http (prReviewsUrl owner repo pullRequestId)
  if response.ok then .ok response.data else .error (ghFailText response)

/-- From `lib/github.ts` fetchIssueComments (also reached through
`GitHubClient.getIssueComments`): one GET, no pagination. -/
def fetchIssueComments
    (http : String → GhResponse (List IssueComment))
    (owner repo : String) (issueNumber : Int) :
    Except String (List IssueComment) :=
  let response := http (issueCommentsUrl owner repo issueNumber)
  if response.ok then .ok response.data else .error (ghFailText response)

/-- Error body for missing path parameters (`app.ts` handlePRComments). -/
def missingParamsBody : String :=
  "# Error 400\n\nMissing required parameters.\n\nExpected: /:owner/:repo/pull/:pullRequestId"

/-- Error body for a non-numeric pull request id (`app.ts` handlePRComments). -/
def invalidPrIdBody (pullRequestId : String) : String :=
  "# Error 400\n\nInvalid pull request ID.\n\n**Received:** " ++ pullRequestId ++
    "\n\nPull request ID must be a number."

/-- Error body for a non-numeric comment number (`app.ts` handlePRComments). -/
def invalidCommentNumBody (commentNumber : String) : String :=
  "# Error 400\n\nInvalid comment number.\n\n**Received:** " ++ commentNumber ++
    "\n\nComment number must be a number."

/-- Error body for a missing GitHub token (`app.ts` handlePRComments). -/
def authErrBody : String :=
  "# Error 401\n\nMissing GitHub token.\n\n**Options:**\n- Set `GITHUB_TOKEN` environment variable\n- Pass token as query parameter: `?token=your_token`"

/-- Error body for an out-of-range comment number (`app.ts` handlePRComments),
stating the valid range. -/
def ordErrBody (commentNum : Int) (prId : Int) (total : Nat) : String :=
  ("# Error 404\n\nComment not found.\n\n**Comment Number:** " ++ toString commentNum ++
   "\n**Pull Request:** #" ++ toString prId ++
   "\n**Total Comments:** " ++ toString total ++
   "\n\nComment number must be ") ++
  ("between 1 and " ++ toString total ++ ".")

/-- Error body for an upstream failure caught by the handler
(`app.ts` handlePRComments catch block). -/
def upstreamFailBody (details : String) : String :=
  "# Error\n\nFailed to fetch pull request comments.\n\n**Details:** " ++ details

/-- The comment-number validation step of handlePRComments: absent or empty
(JS-falsy) means no filtering; otherwise `parseInt` must succeed, and a NaN
result is a 400 validation error carrying the raw string. -/
def parseCommentNumber (parseNum : String → Option Int) :
    Option String → Except String (Option Int)
  | none => .ok none
  | some s => if s = "" then .ok none else
      match parseNum s with
      | none => .error s
      | some k => .ok (some k)

/-- From `app.ts` async function handlePRComments (the reviews/threading
variant). `parseNum` models `parseInt(s, 10)` (`none` = NaN); `fetchBoth` is
the settled result of `client.getPullRequestReviewsAndComments`; and
`fetchComments` the settled result of `client.getPullRequestComments` — the
handler awaits at most one of them, on the branch it takes. Validation order
is that of the source: path params, pull request id, comment number, token,
then the fetch, then the ordinal filter. -/
def handlePRComments (E : Collab) (parseNum : String → Option Int)
    (fetchBoth : Except String (List PullRequestReview × List PullRequestReviewComment))
    (fetchComments : Except String (List PullRequestReviewComment))
    (owner repo pullRequestId : String) (commentNumber : Option String)
    (token : String) (options : FormattingOptions) : ServerResponse :=
  if owner = "" ∨ repo = "" ∨ pullRequestId = "" then ⟨400, missingParamsBody⟩
  else
    match parseNum pullRequestId with
    | none => ⟨400, invalidPrIdBody pullRequestId⟩
    | some prId =>
      match parseCommentNumber parseNum commentNumber with
      | .error badStr => ⟨400, invalidCommentNumBody badStr⟩
      | .ok commentNum =>
        if token = "" then ⟨401, authErrBody⟩
        else if options.includeReviews || options.showThreading then
          match fetchBoth with
          | .error e => ⟨500, upstreamFailBody e⟩
          | .ok (reviews, comments) =>
            match commentNum with
            | some k =>
              if k < 1 ∨ k > (comments.length : Int) then
                ⟨404, ordErrBody k prId comments.length⟩
              else
                ⟨200, formatCommentsWithReviews E owner repo prId reviews
                  ((comments[(k - 1).toNat]?).toList) options⟩
            | none => ⟨200, formatCommentsWithReviews E owner repo prId reviews comments options⟩
        else
          match fetchComments with
          | .error e => ⟨500, upstreamFailBody e⟩
          | .ok comments =>
            match commentNum with
            | some k =>
              if k < 1 ∨ k > (comments.length : Int) then
                ⟨404, ordErrBody k prId comments.length⟩
              else
                ⟨200, formatCommentsAsMarkdown E owner repo prId
                  ((comments[(k - 1).toNat]?).toList)⟩
            | none => ⟨200, formatCommentsAsMarkdown E owner repo prId comments⟩

/-- A user for the concrete test fixtures below. -/
def userA : SimpleUser := ⟨"alice"⟩

/-- A review comment fixture with the given id, parent reference and owning
review; all display-only fields constant. -/
def mkComment (id : Nat) (replyTo reviewId : Option Nat) : PullRequestReviewComment :=
  ⟨id, reviewId, replyTo, userA, "body text", "2024-01-01T00:00:00Z",
   "https://example.com/c", "src/file.ts", none, none, none⟩

/-- An issue comment fixture. -/
def mkIssueComment (id : Nat) : IssueComment :=
  ⟨id, userA, "comment body", "2023-01-02T12:00:00Z", "https://example.com/i"⟩

/-- A review fixture with id 10 and no body. -/
def reviewTen : PullRequestReview :=
  ⟨10, userA, none, "APPROVED", "https://example.com/r", "2024-01-02T00:00:00Z"⟩

/-- Concrete collaborators: every body counts one token, numbers and dates
format as themselves. -/
def collabOne : Collab := ⟨fun _ => some 1, fun n => toString n, fun s => s⟩

/-- `parseInt` stand-in for the concrete fixtures: a table of the numeric
strings the fixtures use, NaN (`none`) on anything else. -/
def parseDec (s : String) : Option Int :=
  if s = "7" then some 7 else if s = "2" then some 2 else if s = "0" then some 0 else none

/-- A comment whose `in_reply_to_id` (99) matches no id in its set. -/
def cxDangling : PullRequestReviewComment := mkComment 1 (some 99) none

/-- A reply (id 2) to the dangling comment `cxDangling`. -/
def cxReply : PullRequestReviewComment := mkComment 2 (some 1) (some 10)

/-- A root comment grouped under review 10. -/
def wParent : PullRequestReviewComment := mkComment 1 none (some 10)

/-- A reply (id 2) to `wParent`. -/
def wReply : PullRequestReviewComment := mkComment 2 (some 1) (some 10)

/-- A comment with id 1 whose `in_reply_to_id` is 0: JS-falsy, so the source
treats it as a root even though a comment with id 0 exists. -/
def loopRoot : PullRequestReviewComment := mkComment 1 (some 0) none

/-- A comment with id 0 replying to comment 1; together with `loopRoot` this
forms a reply cycle reachable from a root. -/
def loopZero : PullRequestReviewComment := mkComment 0 (some 1) none

/-- A standalone root comment with id 0. -/
def zeroRoot : PullRequestReviewComment := mkComment 0 none none

/-- A comment with JS-falsy `in_reply_to_id` 0 whose review id 99 matches no
supplied review. -/
def orphanRoot : PullRequestReviewComment := mkComment 5 (some 0) (some 99)

/-- The second-page URL advertised by the two-page fixture transport. -/
def page2Url : String :=
  "https://api.github.com/repos/o/r/issues/123/comments?per_page=100&page=2"

/-- A transport serving a two-page issue-comment listing, 100 items per page,
page 1 carrying a continuation link to page 2 (the shape of the pagination
test fixture in the repository test suite). -/
def httpTwoPage : String → GhResponse (List IssueComment) := fun url =>
  if url = issueCommentsUrl "o" "r" 123 then
    ⟨true, 200, "OK", "", List.replicate 100 (mkIssueComment 1), some page2Url⟩
  else if url = page2Url then
    ⟨true, 200, "OK", "", List.replicate 100 (mkIssueComment 2), none⟩
  else ⟨false, 404, "Not Found", "Not Found", [], none⟩

/-- Three comments for the ordinal-filter fixtures. -/
def wComments : List PullRequestReviewComment :=
  [mkComment 21 none none, mkComment 22 none none, mkComment 23 none none]

/-- Collaborators whose token encoder always throws. -/
def collabFail : Collab := ⟨fun _ => none, fun n => toString n, fun s => s⟩

theorem foldl_add_eq_sum {α : Type} (f : α → Nat) :
    ∀ (l : List α) (a : Nat), l.foldl (fun s c => s + f c) a = a + (l.map f).sum := by
  intro l
  induction l with
  | nil => intro a; simp
  | cons x xs ih => intro a; simp [List.foldl_cons, ih]; omega

theorem mem_flattenForest {ts : List CTree} {x : PullRequestReviewComment} :
    x ∈ flattenForest ts ↔ ∃ t ∈ ts, x ∈ flattenTree t := by
  induction ts with
  | nil => simp [flattenForest]
  | cons t ts ih =>
    simp only [flattenForest, List.mem_append, ih, List.mem_cons]
    constructor
    · rintro (h | ⟨u, hu, hx⟩)
      · exact ⟨t, Or.inl rfl, h⟩
      · exact ⟨u, Or.inr hu, hx⟩
    · rintro ⟨u, (rfl | hu), hx⟩
      · exact Or.inl hx
      · exact Or.inr ⟨u, hu, hx⟩

theorem rootOf_buildTree (comments : List PullRequestReviewComment)
    (fuel : Nat) (c : PullRequestReviewComment) :
    rootOf (buildTree comments fuel c) = c := by
  cases fuel <;> rfl

theorem mem_getReplies {comments : List PullRequestReviewComment} {n : Nat}
    {x : PullRequestReviewComment} :
    x ∈ getReplies comments n ↔ x ∈ comments ∧ x.in_reply_to_id = some n := by
  simp [getReplies, List.mem_filter]

theorem mem_rootComments {comments : List PullRequestReviewComment}
    {x : PullRequestReviewComment} :
    x ∈ rootComments comments ↔ x ∈ comments ∧ jsTruthyN x.in_reply_to_id = false := by
  simp [rootComments, List.mem_filter]

theorem mem_groupFor {comments : List PullRequestReviewComment} {rid : Option Nat}
    {x : PullRequestReviewComment} :
    x ∈ groupFor comments rid ↔
      x ∈ comments ∧ jsTruthyN x.in_reply_to_id = false ∧ x.pull_request_review_id = rid := by
  simp [groupFor, List.mem_filter, mem_rootComments, and_assoc]

theorem mem_of_mem_buildTree {comments : List PullRequestReviewComment} :
    ∀ {fuel : Nat} {c0 x : PullRequestReviewComment}, c0 ∈ comments →
      x ∈ flattenTree (buildTree comments fuel c0) →
      x = c0 ∨ ∃ p ∈ comments, x ∈ comments ∧ x.in_reply_to_id = some p.id := by
  intro fuel
  induction fuel with
  | zero =>
    intro c0 x _ hx
    simp [buildTree, flattenTree, flattenForest] at hx
    exact Or.inl hx
  | succ fuel ih =>
    intro c0 x hc0 hx
    simp only [buildTree, flattenTree, List.mem_cons] at hx
    rcases hx with rfl | hx
    · exact Or.inl rfl
    · rw [mem_flattenForest] at hx
      obtain ⟨t, ht, hxt⟩ := hx
      rw [List.mem_map] at ht
      obtain ⟨r, hr, rfl⟩ := ht
      rw [mem_getReplies] at hr
      rcases ih hr.1 hxt with rfl | h
      · exact Or.inr ⟨c0, hc0, hr.1, hr.2⟩
      · exact Or.inr h

theorem linked_tail_mem :
    ∀ {l : List PullRequestReviewComment} {x : PullRequestReviewComment},
      Linked (x :: l) → ∀ e ∈ l,
        jsTruthyN e.in_reply_to_id = false ∨ ∃ f ∈ l, e.in_reply_to_id = some f.id := by
  intro l
  induction l with
  | nil => intro x _ e he; cases he
  | cons y l ih =>
    intro x hx e he
    have hyl : Linked (y :: l) := by cases hx with | cons _ _ _ _ h => exact h
    rcases List.mem_cons.mp he with rfl | hel
    · cases hyl with
      | single _ hroot => exact Or.inl hroot
      | cons _ z l2 hz _ => exact Or.inr ⟨z, List.mem_cons_of_mem _ (List.mem_cons_self z l2), hz⟩
    · rcases ih hyl e hel with h | ⟨f, hf, hef⟩
      · exact Or.inl h
      · exact Or.inr ⟨f, List.mem_cons_of_mem _ hf, hef⟩

theorem no_back_edge {comments : List PullRequestReviewComment}
    (hinj : ∀ a ∈ comments, ∀ b ∈ comments, a.id = b.id → a = b)
    (hnz : ∀ a ∈ comments, a.id ≠ 0)
    {r : PullRequestReviewComment} {rest : List PullRequestReviewComment}
    (hl : Linked (r :: rest)) (hnd : (r :: rest).Nodup)
    (hsub : ∀ x ∈ r :: rest, x ∈ comments) :
    ∀ e ∈ r :: rest, e.in_reply_to_id ≠ some r.id := by
  intro e he heq
  have hrmem : r ∈ comments := hsub r (List.mem_cons_self r rest)
  rcases List.mem_cons.mp he with rfl | hel
  · -- the head cannot reply to itself
    cases hl with
    | single _ hroot =>
      rw [heq] at hroot
      simp [jsTruthyN] at hroot
      exact hnz e hrmem hroot
    | cons _ y l hy _ =>
      rw [heq] at hy
      have hymem : y ∈ comments := hsub y (List.mem_cons_of_mem _ (List.mem_cons_self y l))
      have : e = y := hinj e hrmem y hymem (Option.some.inj hy)
      subst this
      exact (List.nodup_cons.mp hnd).1 (List.mem_cons_self e l)
  · -- a tail element cannot reply to the head
    rcases linked_tail_mem hl e hel with hroot | ⟨f, hf, hef⟩
    · rw [heq] at hroot
      simp [jsTruthyN] at hroot
      exact hnz r hrmem hroot
    · rw [heq] at hef
      have hfmem : f ∈ comments := hsub f (List.mem_cons_of_mem _ hf)
      have : f = r := hinj f hfmem r hrmem (Option.some.inj hef).symm
      subst this
      exact (List.nodup_cons.mp hnd).1 hf

theorem chain_extend {comments : List PullRequestReviewComment}
    (hinj : ∀ a ∈ comments, ∀ b ∈ comments, a.id = b.id → a = b)
    (hnz : ∀ a ∈ comments, a.id ≠ 0)
    {r c : PullRequestReviewComment} {rest : List PullRequestReviewComment}
    (hl : Linked (r :: rest)) (hnd : (r :: rest).Nodup)
    (hsub : ∀ x ∈ r :: rest, x ∈ comments)
    (hc : c ∈ getReplies comments r.id) :
    Linked (c :: r :: rest) ∧ (c :: r :: rest).Nodup ∧ ∀ x ∈ c :: r :: rest, x ∈ comments := by
  rw [mem_getReplies] at hc
  refine ⟨Linked.cons c r rest hc.2 hl, ?_, ?_⟩
  · rw [List.nodup_cons]
    refine ⟨fun hmem => ?_, hnd⟩
    exact no_back_edge hinj hnz hl hnd hsub c hmem hc.2
  · intro x hx
    rcases List.mem_cons.mp hx with rfl | hx2
    · exact hc.1
    · exact hsub x hx2

theorem chain_length_le {comments l : List PullRequestReviewComment}
    (hnd : l.Nodup) (hsub : ∀ x ∈ l, x ∈ comments) : l.length ≤ comments.length :=
  (List.subperm_of_subset hnd hsub).length_le

theorem buildTree_stab {comments : List PullRequestReviewComment}
    (hinj : ∀ a ∈ comments, ∀ b ∈ comments, a.id = b.id → a = b)
    (hnz : ∀ a ∈ comments, a.id ≠ 0) :
    ∀ (fuel1 fuel2 : Nat) (r : PullRequestReviewComment)
      (rest : List PullRequestReviewComment),
      Linked (r :: rest) → (r :: rest).Nodup → (∀ x ∈ r :: rest, x ∈ comments) →
      comments.length + 1 ≤ fuel1 + (r :: rest).length →
      comments.length + 1 ≤ fuel2 + (r :: rest).length →
      buildTree comments fuel1 r = buildTree comments fuel2 r := by
  intro fuel1
  induction fuel1 with
  | zero =>
    intro fuel2 r rest hl hnd hsub h1 _
    exact absurd (chain_length_le hnd hsub) (by simp at h1 ⊢; omega)
  | succ fuel1 ih =>
    intro fuel2 r rest hl hnd hsub h1 h2
    cases fuel2 with
    | zero => exact absurd (chain_length_le hnd hsub) (by simp at h2 ⊢; omega)
    | succ fuel2 =>
      simp only [buildTree, CTree.node.injEq, true_and]
      apply List.map_congr_left
      intro c hc
      obtain ⟨hl2, hnd2, hsub2⟩ := chain_extend hinj hnz hl hnd hsub hc
      exact ih fuel2 c (r :: rest) hl2 hnd2 hsub2
        (by simp at h1 ⊢; omega) (by simp at h2 ⊢; omega)

theorem edge_of_mem_forest {ts : List CTree} {t : CTree}
    {p c : PullRequestReviewComment} (ht : t ∈ ts) (h : edgeInTree t p c = true) :
    edgeInForest ts p c = true := by
  induction ts with
  | nil => cases ht
  | cons u ts ih =>
    rcases List.mem_cons.mp ht with rfl | htl
    · simp [edgeInForest, h]
    · simp [edgeInForest, ih htl]

theorem roots_of_mapped_trees (comments : List PullRequestReviewComment)
    (fuel : Nat) (l : List PullRequestReviewComment) :
    (l.map (buildTree comments fuel)).map rootOf = l := by
  rw [List.map_map]
  have : rootOf ∘ buildTree comments fuel = id := by
    funext c
    exact rootOf_buildTree comments fuel c
  rw [this, List.map_id]

theorem expand_edge {comments : List PullRequestReviewComment}
    (hinj : ∀ a ∈ comments, ∀ b ∈ comments, a.id = b.id → a = b)
    (hnz : ∀ a ∈ comments, a.id ≠ 0) :
    ∀ (fuel : Nat) (r : PullRequestReviewComment) (rest : List PullRequestReviewComment),
      Linked (r :: rest) → (r :: rest).Nodup → (∀ x ∈ r :: rest, x ∈ comments) →
      comments.length + 1 ≤ fuel + (r :: rest).length →
      ∀ (p c : PullRequestReviewComment),
        p ∈ flattenTree (buildTree comments fuel r) →
        c ∈ getReplies comments p.id →
        edgeInTree (buildTree comments fuel r) p c = true := by
  intro fuel
  induction fuel with
  | zero =>
    intro r rest hl hnd hsub h1
    exact absurd (chain_length_le hnd hsub) (by simp at h1 ⊢; omega)
  | succ fuel ih =>
    intro r rest hl hnd hsub h1 p c hp hc
    simp only [buildTree, flattenTree, List.mem_cons] at hp
    rcases hp with rfl | hp
    · -- the edge sits at the root node of this tree
      simp only [buildTree, edgeInTree, roots_of_mapped_trees, Bool.or_eq_true,
        Bool.and_eq_true, decide_eq_true_eq]
      exact Or.inl ⟨trivial, hc⟩
    · -- the edge sits inside one of the reply trees
      rw [mem_flattenForest] at hp
      obtain ⟨t, ht, hpt⟩ := hp
      rw [List.mem_map] at ht
      obtain ⟨x, hx, rfl⟩ := ht
      obtain ⟨hl2, hnd2, hsub2⟩ := chain_extend hinj hnz hl hnd hsub hx
      have hin := ih x (r :: rest) hl2 hnd2 hsub2 (by simp at h1 ⊢; omega) p c hpt hc
      simp only [buildTree, edgeInTree, Bool.or_eq_true]
      exact Or.inr (edge_of_mem_forest (List.mem_map_of_mem (buildTree comments fuel) hx) hin)

theorem forestStr_nil (E : Collab) (d : Nat) : forestStr E [] d = "" := rfl

theorem formatCommentWithReplies_eq_treeStr (E : Collab)
    (comments : List PullRequestReviewComment) :
    ∀ (fuel : Nat) (c : PullRequestReviewComment) (depth : Nat),
      formatCommentWithReplies E comments fuel c depth =
        treeStr E (buildTree comments fuel c) depth := by
  intro fuel
  induction fuel with
  | zero =>
    intro c depth
    simp [formatCommentWithReplies, buildTree, treeStr, forestStr, String.append_empty]
  | succ fuel ih =>
    intro c depth
    simp only [formatCommentWithReplies, buildTree, treeStr]
    congr 1
    generalize getReplies comments c.id = l
    induction l with
    | nil => simp [forestStr, String.join]
    | cons x xs ihl =>
      simp only [List.map_cons, String.join, List.foldl_cons, forestStr] at ihl ⊢
      rw [← ihl, ← ih x (depth + 1)]
      have hjoin : ∀ (ss : List String) (a b : String),
          List.foldl (fun r s => r ++ s) (a ++ b) ss = a ++ List.foldl (fun r s => r ++ s) b ss := by
        intro ss
        induction ss with
        | nil => intro a b; rfl
        | cons u us ihu => intro a b; simp only [List.foldl_cons, String.append_assoc, ihu]
      calc List.foldl (fun r s => r ++ s) ("" ++ formatCommentWithReplies E comments fuel x (depth + 1))
            (xs.map (fun reply => formatCommentWithReplies E comments fuel reply (depth + 1)))
          = formatCommentWithReplies E comments fuel x (depth + 1) ++
              List.foldl (fun r s => r ++ s) ""
                (xs.map (fun reply => formatCommentWithReplies E comments fuel reply (depth + 1))) := by
            rw [String.empty_append]
            have := hjoin (xs.map (fun reply => formatCommentWithReplies E comments fuel reply (depth + 1)))
              (formatCommentWithReplies E comments fuel x (depth + 1)) ""
            rw [← this, String.append_empty]
        _ = formatCommentWithReplies E comments fuel x (depth + 1) ++
              String.join (xs.map (fun reply => formatCommentWithReplies E comments fuel reply (depth + 1))) := rfl

theorem commentSections_length (E : Collab) (total : Nat) :
    ∀ (i : Nat) (cs : List PullRequestReviewComment),
      (commentSections E total i cs).length = cs.length := by
  intro i cs
  induction cs generalizing i with
  | nil => rfl
  | cons c cs ih => simp [commentSections, ih]

theorem commentSections_getElem (E : Collab) (total : Nat) :
    ∀ (cs : List PullRequestReviewComment) (i j : Nat) (c : PullRequestReviewComment),
      cs[j]? = some c →
      (commentSections E total i cs)[j]? = some (flatSection E total (i + j) c) := by
  intro cs
  induction cs with
  | nil => intro i j c h; simp at h
  | cons x xs ih =>
    intro i j c h
    cases j with
    | zero =>
      simp at h
      subst h
      simp [commentSections]
    | succ j =>
      simp only [List.getElem?_cons_succ] at h
      simp only [commentSections, List.getElem?_cons_succ]
      have := ih (i + 1) j c h
      rw [this]
      congr 2
      omega

/-- C5: for every renderer input the token total reported in the header is
the sum of the independently computed per-body token counts (for the flat
renderer, and likewise for the reviews renderer over truthy review bodies
plus all comment bodies); an encoder failure on a body is recovered as a
count of zero for that body; and rendering with a failing encoder still
produces the full markdown output, identical to rendering with the recovered
(zero-on-failure) counts supplied as an always-succeeding counter. -/
theorem c5_token_totals_and_resilience (E : Collab) (owner repo : String) (prId : Int)
    (reviews : List PullRequestReview) (comments : List PullRequestReviewComment) :
    totalTokensFlat E comments = (comments.map (fun c => countTokens E c.body)).sum
    ∧ totalTokensWR E reviews comments =
        (reviews.map (fun rv =>
          if jsTruthyS rv.body then countTokens E (rv.body.getD "") else 0)).sum
          + (comments.map (fun c => countTokens E c.body)).sum
    ∧ (∀ s, E.enc s = none → countTokens E s = 0)
    ∧ formatCommentsAsMarkdown ⟨fun s => some (countTokens E s), E.fmtNum, E.fmtDate⟩
        owner repo prId comments = formatCommentsAsMarkdown E owner repo prId comments := by
  refine ⟨?_, ?_, ?_, ?_⟩
  · simpa using foldl_add_eq_sum (fun c => countTokens E c.body) comments 0
  · have hfun : (fun (s : Nat) (rv : PullRequestReview) =>
        if jsTruthyS rv.body then s + countTokens E (rv.body.getD "") else s) =
        (fun (s : Nat) (rv : PullRequestReview) =>
          s + (if jsTruthyS rv.body then countTokens E (rv.body.getD "") else 0)) := by
      funext s rv
      by_cases h : jsTruthyS rv.body <;> simp [h]
    rw [totalTokensWR, hfun,
      foldl_add_eq_sum (fun rv => if jsTruthyS rv.body then countTokens E (rv.body.getD "") else 0)
        reviews 0,
      foldl_add_eq_sum (fun c => countTokens E c.body) comments]
    omega
  · intro s h
    simp [countTokens, h]
  · have htot : totalTokensFlat
        ⟨fun s => some (countTokens E s), E.fmtNum, E.fmtDate⟩ comments =
        totalTokensFlat E comments := by
      unfold totalTokensFlat
      congr 1
    have hsec : ∀ (total i : Nat) (cs : List PullRequestReviewComment),
        commentSections ⟨fun s => some (countTokens E s), E.fmtNum, E.fmtDate⟩ total i cs =
          commentSections E total i cs := by
      intro total i cs
      induction cs generalizing i with
      | nil => rfl
      | cons x xs ih =>
        show flatSection _ total i x :: commentSections _ total (i + 1) xs =
          flatSection E total i x :: commentSections E total (i + 1) xs
        rw [ih]
        rfl
    simp only [formatCommentsAsMarkdown, htot, hsec]
    rfl

/-- C5 witness: with an always-throwing encoder every count is zero, the
reported total is zero, and the renderer still produces its full output. -/
theorem c5_witness :
    totalTokensFlat collabFail wComments =
      (wComments.map (fun c => countTokens collabFail c.body)).sum
    ∧ countTokens collabFail "body text" = 0
    ∧ formatCommentsAsMarkdown
        ⟨fun s => some (countTokens collabFail s), collabFail.fmtNum, collabFail.fmtDate⟩
        "o" "r" 7 wComments = formatCommentsAsMarkdown collabFail "o" "r" 7 wComments :=
  ⟨(c5_token_totals_and_resilience collabFail "o" "r" 7 [] wComments).1,
   (c5_token_totals_and_resilience collabFail "o" "r" 7 [] wComments).2.2.1 "body text" rfl,
   (c5_token_totals_and_resilience collabFail "o" "r" 7 [] wComments).2.2.2⟩

/-- C7: the flat renderer heads its sections Comment 1 through Comment N by
1-based position in input order (section j of the rendered list is the
section of the j-th input comment and opens with the heading for ordinal
j+1) and reports N on the Total Comments header line, whereas the threaded
renderer heads each depth-0 comment with the comment id and marks each
deeper comment with a Reply arrow instead of a heading. -/
theorem c7_flat_ordinals_threaded_ids (E : Collab) (owner repo : String) (prId : Int)
    (comments : List PullRequestReviewComment) :
    (comments ≠ [] →
      formatCommentsAsMarkdown E owner repo prId comments =
        flatHeader E owner repo prId comments.length (totalTokensFlat E comments) ++
          String.join (commentSections E comments.length 0 comments))
    ∧ (∀ total i, (commentSections E total i comments).length = comments.length)
    ∧ (∀ (total j : Nat) (c : PullRequestReviewComment), comments[j]? = some c →
        (commentSections E total 0 comments)[j]? = some (flatSection E total j c))
    ∧ (∀ (total j : Nat) (c : PullRequestReviewComment), ∃ rest,
        flatSection E total j c = ("## Comment " ++ toString (j + 1) ++ "\n\n") ++ rest)
    ∧ (∀ totalTokens, ∃ pre post,
        flatHeader E owner repo prId comments.length totalTokens =
          pre ++ ("**Total Comments:** " ++ toString comments.length ++ "\n") ++ post)
    ∧ (∀ (cs : List PullRequestReviewComment) (fuel : Nat) (c : PullRequestReviewComment),
        ∃ rest, formatCommentWithReplies E cs fuel c 0 =
          ("## Comment " ++ toString c.id ++ "\n\n") ++ rest)
    ∧ (∀ (cs : List PullRequestReviewComment) (fuel d : Nat)
        (c : PullRequestReviewComment), ∃ rest,
        formatCommentWithReplies E cs fuel c (d + 1) =
          (jsRepeat "  " (d + 1) ++ "**↳ Reply**\n\n") ++ rest) := by
  refine ⟨?_, ?_, ?_, ?_, ?_, ?_, ?_⟩
  · intro h
    have : comments.length ≠ 0 := by simpa using h
    simp [formatCommentsAsMarkdown, this]
  · intro total i
    exact commentSections_length E total i comments
  · intro total j c h
    simpa using commentSections_getElem E total comments 0 j c h
  · intro total j c
    exact ⟨_, rfl⟩
  · intro totalTokens
    exact ⟨_, _, rfl⟩
  · intro cs fuel c
    cases fuel with
    | zero =>
      simp only [formatCommentWithReplies, commentNodeStr, if_pos, String.append_assoc]
      exact ⟨_, rfl⟩
    | succ fuel =>
      simp only [formatCommentWithReplies, commentNodeStr, if_pos, String.append_assoc]
      exact ⟨_, rfl⟩
  · intro cs fuel d c
    cases fuel with
    | zero =>
      simp only [formatCommentWithReplies, commentNodeStr,
        if_neg (Nat.succ_ne_zero d), String.append_assoc]
      exact ⟨_, rfl⟩
    | succ fuel =>
      simp only [formatCommentWithReplies, commentNodeStr,
        if_neg (Nat.succ_ne_zero d), String.append_assoc]
      exact ⟨_, rfl⟩

/-- C7 witness: concrete three-comment instantiation of the flat-renderer
decomposition, the 1-based section labels, and the threaded id heading. -/
theorem c7_witness :
    (formatCommentsAsMarkdown collabOne "o" "r" 7 wComments =
      flatHeader collabOne "o" "r" 7 wComments.length (totalTokensFlat collabOne wComments) ++
        String.join (commentSections collabOne wComments.length 0 wComments))
    ∧ (commentSections collabOne 3 0 wComments)[1]? =
        some (flatSection collabOne 3 1 (mkComment 22 none none))
    ∧ ∃ rest, formatCommentWithReplies collabOne wComments 3 (mkComment 21 none none) 0 =
        ("## Comment " ++ toString (mkComment 21 none none).id ++ "\n\n") ++ rest :=
  ⟨(c7_flat_ordinals_threaded_ids collabOne "o" "r" 7 wComments).1 (by decide),
   (c7_flat_ordinals_threaded_ids collabOne "o" "r" 7 wComments).2.2.1 3 1
     (mkComment 22 none none) (by rfl),
   (c7_flat_ordinals_threaded_ids collabOne "o" "r" 7 wComments).2.2.2.2.2.1 wComments 3
     (mkComment 21 none none)⟩

/-- C8: two requests identical except for the value or presence of the
resolved query option produce byte-identical responses: the parsed
`resolvedFilter` field is carried in the options but never read on any
fetch, filter or render path. -/
theorem c8_resolved_is_noop (E : Collab) (parseNum : String → Option Int)
    (fetchBoth : Except String (List PullRequestReview × List PullRequestReviewComment))
    (fetchComments : Except String (List PullRequestReviewComment))
    (owner repo pullRequestId : String) (commentNumber : Option String) (token : String)
    (ir st : Bool) (r1 r2 : Option String) :
    handlePRComments E parseNum fetchBoth fetchComments owner repo pullRequestId
      commentNumber token ⟨ir, st, r1⟩ =
    handlePRComments E parseNum fetchBoth fetchComments owner repo pullRequestId
      commentNumber token ⟨ir, st, r2⟩ := rfl

/-- C4: with valid path parameters and a token, requesting ordinal k from a
fetched sequence of length M renders exactly the k-th (1-indexed) element
alone when 1 <= k <= M (in both the simple and the reviews/threading
branch), while any k outside the range produces the 404 ordinal error whose
message states the valid range as between 1 and M, a response distinct from
the 500 upstream-failure response. -/
theorem c4_ordinal_filtering (E : Collab) (parseNum : String → Option Int)
    (fetchBoth : Except String (List PullRequestReview × List PullRequestReviewComment))
    (fetchComments : Except String (List PullRequestReviewComment))
    (owner repo prStr numStr token : String) (options : FormattingOptions)
    (reviews : List PullRequestReview) (comments : List PullRequestReviewComment)
    (prId k : Int)
    (howner : owner ≠ "") (hrepo : repo ≠ "") (hpr : prStr ≠ "")
    (hparse : parseNum prStr = some prId)
    (hnum : numStr ≠ "") (hk : parseNum numStr = some k)
    (htoken : token ≠ "")
    (hfB : fetchBoth = .ok (reviews, comments))
    (hfC : fetchComments = .ok comments) :
    ((options.includeReviews || options.showThreading) = false →
      1 ≤ k → k ≤ (comments.length : Int) →
      ∃ c, comments[(k - 1).toNat]? = some c ∧
        handlePRComments E parseNum fetchBoth fetchComments owner repo prStr
          (some numStr) token options =
          ⟨200, formatCommentsAsMarkdown E owner repo prId [c]⟩)
    ∧ ((options.includeReviews || options.showThreading) = true →
      1 ≤ k → k ≤ (comments.length : Int) →
      ∃ c, comments[(k - 1).toNat]? = some c ∧
        handlePRComments E parseNum fetchBoth fetchComments owner repo prStr
          (some numStr) token options =
          ⟨200, formatCommentsWithReviews E owner repo prId reviews [c] options⟩)
    ∧ (k < 1 ∨ (comments.length : Int) < k →
      handlePRComments E parseNum fetchBoth fetchComments owner repo prStr
        (some numStr) token options =
        ⟨404, ordErrBody k prId comments.length⟩)
    ∧ (∃ pre, ordErrBody k prId comments.length =
        pre ++ ("between 1 and " ++ toString comments.length ++ "."))
    ∧ (∀ e, (⟨404, ordErrBody k prId comments.length⟩ : ServerResponse) ≠
        ⟨500, upstreamFailBody e⟩) := by
  have hrange : ∀ (h1 : 1 ≤ k) (h2 : k ≤ (comments.length : Int)),
      comments[(k - 1).toNat]? = some (comments.get ⟨(k - 1).toNat, by omega⟩) := by
    intro h1 h2
    rw [List.getElem?_eq_getElem (by omega)]
    simp [List.get_eq_getElem]
  refine ⟨?_, ?_, ?_, ⟨_, rfl⟩, ?_⟩
  · intro hopt h1 h2
    refine ⟨comments.get ⟨(k - 1).toNat, by omega⟩, hrange h1 h2, ?_⟩
    simp only [handlePRComments, howner, hrepo, hpr, hparse, parseCommentNumber,
      if_neg hnum, hk, if_neg htoken, hopt, hfB, hfC]
    simp only [if_neg (by push_neg; omega : ¬(k < 1 ∨ k > (comments.length : Int)))]
    rw [hrange h1 h2]
    simp
  · intro hopt h1 h2
    refine ⟨comments.get ⟨(k - 1).toNat, by omega⟩, hrange h1 h2, ?_⟩
    simp only [handlePRComments, howner, hrepo, hpr, hparse, parseCommentNumber,
      if_neg hnum, hk, if_neg htoken, hopt, hfB, hfC]
    simp only [if_neg (by push_neg; omega : ¬(k < 1 ∨ k > (comments.length : Int)))]
    rw [hrange h1 h2]
    simp
  · intro hout
    cases hopt : (options.includeReviews || options.showThreading) with
    | false =>
      simp only [handlePRComments, howner, hrepo, hpr, hparse, parseCommentNumber,
        if_neg hnum, hk, if_neg htoken, hopt, hfB, hfC]
      simp only [if_pos (by omega : k < 1 ∨ k > (comments.length : Int))]
      simp
    | true =>
      simp only [handlePRComments, howner, hrepo, hpr, hparse, parseCommentNumber,
        if_neg hnum, hk, if_neg htoken, hopt, hfB, hfC]
      simp only [if_pos (by omega : k < 1 ∨ k > (comments.length : Int))]
      simp
  · intro e h
    exact absurd (congrArg ServerResponse.status h) (by simp)

/-- C4 witness: ordinal 2 of a three-comment fetch renders exactly the
second comment; ordinal 0 yields the 404 range error. -/
theorem c4_witness :
    (∃ c, wComments[((2 : Int) - 1).toNat]? = some c ∧
      handlePRComments collabOne parseDec (.ok ([], wComments)) (.ok wComments)
        "o" "r" "7" (some "2") "t" ⟨false, false, none⟩ =
        ⟨200, formatCommentsAsMarkdown collabOne "o" "r" 7 [c]⟩)
    ∧ handlePRComments collabOne parseDec (.ok ([], wComments)) (.ok wComments)
        "o" "r" "7" (some "0") "t" ⟨false, false, none⟩ =
        ⟨404, ordErrBody 0 7 wComments.length⟩ :=
  ⟨(c4_ordinal_filtering collabOne parseDec (.ok ([], wComments)) (.ok wComments)
      "o" "r" "7" "2" "t" ⟨false, false, none⟩ [] wComments 7 2
      (by decide) (by decide) (by decide) (by decide) (by decide) (by decide)
      (by decide) rfl rfl).1 rfl (by decide) (by decide),
   (c4_ordinal_filtering collabOne parseDec (.ok ([], wComments)) (.ok wComments)
      "o" "r" "7" "0" "t" ⟨false, false, none⟩ [] wComments 7 0
      (by decide) (by decide) (by decide) (by decide) (by decide) (by decide)
      (by decide) rfl rfl).2.2.1 (by decide)⟩

/-- C6 counterexample: a request with an EMPTY token and a non-numeric pull
request id fails with the 400 validation error, not the 401 authentication
error — the handler validates the id before checking the token, so the
claim that a missing token yields the authentication error regardless of
parameter validity is false. -/
theorem c6_counterexample :
    handlePRComments collabOne parseDec (.ok ([], [])) (.ok []) "o" "r" "abc"
      none "" ⟨false, false, none⟩ = ⟨400, invalidPrIdBody "abc"⟩
    ∧ (handlePRComments collabOne parseDec (.ok ([], [])) (.ok []) "o" "r" "abc"
        none "" ⟨false, false, none⟩).status ≠ 401 := by
  constructor
  · rfl
  · decide

/-- C6 amended: with path parameters that pass validation (non-empty
segments, a parsable id and comment number), an empty token yields the 401
authentication error without consulting the fetch results (the response is
identical under any two transports); a non-parsable id yields the 400
validation error, also independent of the transports and of the token; and
the authentication error is distinct from the validation, ordinal and
upstream errors. The validation checks run BEFORE the token check, so the
authentication error is only guaranteed when validation passes. -/
theorem c6_amended (E : Collab) (parseNum : String → Option Int)
    (fetchBoth fetchBoth2 : Except String (List PullRequestReview × List PullRequestReviewComment))
    (fetchComments fetchComments2 : Except String (List PullRequestReviewComment))
    (owner repo prStr : String) (commentNumber : Option String) (token : String)
    (options : FormattingOptions) (prId : Int)
    (howner : owner ≠ "") (hrepo : repo ≠ "") (hpr : prStr ≠ "") :
    ((parseNum prStr = some prId) →
      (∃ m, parseCommentNumber parseNum commentNumber = .ok m) → token = "" →
      handlePRComments E parseNum fetchBoth fetchComments owner repo prStr
        commentNumber token options = ⟨401, authErrBody⟩ ∧
      handlePRComments E parseNum fetchBoth fetchComments owner repo prStr
        commentNumber token options =
        handlePRComments E parseNum fetchBoth2 fetchComments2 owner repo prStr
          commentNumber token options)
    ∧ (parseNum prStr = none →
      handlePRComments E parseNum fetchBoth fetchComments owner repo prStr
        commentNumber token options = ⟨400, invalidPrIdBody prStr⟩ ∧
      handlePRComments E parseNum fetchBoth fetchComments owner repo prStr
        commentNumber token options =
        handlePRComments E parseNum fetchBoth2 fetchComments2 owner repo prStr
          commentNumber token options)
    ∧ ((⟨401, authErrBody⟩ : ServerResponse) ≠ ⟨400, invalidPrIdBody prStr⟩
      ∧ ∀ e, (⟨401, authErrBody⟩ : ServerResponse) ≠ ⟨500, upstreamFailBody e⟩) := by
  refine ⟨?_, ?_, ?_, ?_⟩
  · rintro hparse ⟨m, hm⟩ htok
    constructor
    · simp only [handlePRComments, hparse, hm, if_pos htok]
      rw [if_neg (by simp [howner, hrepo, hpr])]
    · simp only [handlePRComments, hparse, hm, if_pos htok]
  · intro hparse
    constructor
    · simp only [handlePRComments, hparse]
      rw [if_neg (by simp [howner, hrepo, hpr])]
    · simp only [handlePRComments, hparse]
  · intro h
    exact absurd (congrArg ServerResponse.status h) (by simp)
  · intro e h
    exact absurd (congrArg ServerResponse.status h) (by simp)

/-- C6 witness: with valid parameters an empty token gives the 401 error;
a non-numeric id gives the 400 validation error. -/
theorem c6_witness :
    handlePRComments collabOne parseDec (.ok ([], [])) (.ok []) "o" "r" "7"
      none "" ⟨false, false, none⟩ = ⟨401, authErrBody⟩
    ∧ handlePRComments collabOne parseDec (.ok ([], [])) (.ok []) "o" "r" "abc"
        none "t" ⟨false, false, none⟩ = ⟨400, invalidPrIdBody "abc"⟩ :=
  ⟨((c6_amended collabOne parseDec (.ok ([], [])) (.error "x") (.ok []) (.error "y")
      "o" "r" "7" none "" ⟨false, false, none⟩ 7
      (by decide) (by decide) (by decide)).1 (by decide) ⟨none, rfl⟩ rfl).1,
   ((c6_amended collabOne parseDec (.ok ([], [])) (.error "x") (.ok []) (.error "y")
      "o" "r" "abc" none "t" ⟨false, false, none⟩ 0
      (by decide) (by decide) (by decide)).2.1 (by decide)).1⟩

/-- C2 counterexample: a comment whose `in_reply_to_id` (99) matches no id
in the input set is NOT treated as a root — the source only checks JS
truthiness of the field — and the threaded renderers drop it entirely
instead of rendering it as a root thread head. -/
theorem c2_counterexample :
    cxDangling.in_reply_to_id = some 99
    ∧ (∀ d ∈ [cxDangling], d.id ≠ 99)
    ∧ rootComments [cxDangling] = []
    ∧ renderedNoReviews [cxDangling] = []
    ∧ renderedComments [reviewTen] [cxDangling] = [] := by
  refine ⟨rfl, by decide, by decide, by decide, by decide⟩

/-- C2 amended: a comment is a root iff its `in_reply_to_id` is JS-falsy
(absent or 0); a comment carrying a non-zero `in_reply_to_id` that matches
no comment id in the input set is neither a root nor rendered anywhere by
the threaded renderers (it is dropped, though not an error). -/
theorem c2_amended :
    (∀ (comments : List PullRequestReviewComment) (c : PullRequestReviewComment),
      c ∈ rootComments comments ↔ c ∈ comments ∧ jsTruthyN c.in_reply_to_id = false)
    ∧ (∀ (comments : List PullRequestReviewComment) (reviews : List PullRequestReview)
        (c : PullRequestReviewComment) (k : Nat),
        c ∈ comments → c.in_reply_to_id = some k → k ≠ 0 →
        (∀ d ∈ comments, d.id ≠ k) →
        c ∉ renderedNoReviews comments ∧ c ∉ renderedComments reviews comments) := by
  constructor
  · intro comments c
    exact mem_rootComments
  · intro comments reviews c k hc hk hknz hnone
    have hnotroot : jsTruthyN c.in_reply_to_id = true := by simp [hk, jsTruthyN, hknz]
    constructor
    · intro hmem
      rw [renderedNoReviews, mem_flattenForest] at hmem
      obtain ⟨t, ht, hct⟩ := hmem
      rw [threadForest, List.mem_map] at ht
      obtain ⟨t0, ht0, rfl⟩ := ht
      have ht0c : t0 ∈ comments := (mem_rootComments.mp ht0).1
      rcases mem_of_mem_buildTree ht0c hct with rfl | ⟨p, hp, _, hrep⟩
      · rw [(mem_rootComments.mp ht0).2] at hnotroot
        cases hnotroot
      · rw [hk] at hrep
        exact hnone p hp (Option.some.inj hrep).symm
    · intro hmem
      rw [renderedComments, allTrees, mem_flattenForest] at hmem
      obtain ⟨t, ht, hct⟩ := hmem
      rw [List.mem_append] at ht
      have hroot : ∃ t0, (jsTruthyN t0.in_reply_to_id = false ∧ t0 ∈ comments) ∧
          t = buildTree comments comments.length t0 := by
        rcases ht with ht | ht
        · rw [List.mem_flatten] at ht
          obtain ⟨l, hl, htl⟩ := ht
          rw [List.mem_map] at hl
          obtain ⟨rv, _, rfl⟩ := hl
          rw [threadForest, List.mem_map] at htl
          obtain ⟨t0, ht0, rfl⟩ := htl
          have h0 := mem_groupFor.mp ht0
          exact ⟨t0, ⟨h0.2.1, h0.1⟩, rfl⟩
        · rw [threadForest, List.mem_map] at ht
          obtain ⟨t0, ht0, rfl⟩ := ht
          have h0 := mem_groupFor.mp ht0
          exact ⟨t0, ⟨h0.2.1, h0.1⟩, rfl⟩
      obtain ⟨t0, ⟨ht0root, ht0c⟩, rfl⟩ := hroot
      rcases mem_of_mem_buildTree ht0c hct with rfl | ⟨p, hp, _, hrep⟩
      · rw [ht0root] at hnotroot
        cases hnotroot
      · rw [hk] at hrep
        exact hnone p hp (Option.some.inj hrep).symm

/-- C2 witness: the root characterization at a concrete root and the
dropping of a concrete dangling-reference comment. -/
theorem c2_witness :
    (wParent ∈ rootComments [wParent, wReply] ↔
      wParent ∈ [wParent, wReply] ∧ jsTruthyN wParent.in_reply_to_id = false)
    ∧ (cxDangling ∉ renderedNoReviews [cxDangling, wReply]
      ∧ cxDangling ∉ renderedComments [reviewTen] [cxDangling, wReply]) :=
  ⟨(c2_amended).1 [wParent, wReply] wParent,
   (c2_amended).2 [cxDangling, wReply] [reviewTen] cxDangling 99
     (by decide) (by decide) (by decide) (by decide)⟩

/-- C10 counterexample: with a comment of id 0 present, a root comment (its
`in_reply_to_id` 0 is JS-falsy, so the source classifies it as a root) whose
review id 99 matches no supplied review is NOT omitted: `getReplies 0`
picks it up as a reply of the standalone id-0 comment, so it is rendered
inside the Standalone Comments group. -/
theorem c10_counterexample :
    jsTruthyN orphanRoot.in_reply_to_id = false
    ∧ orphanRoot ∈ rootComments [zeroRoot, orphanRoot]
    ∧ orphanRoot.pull_request_review_id = some 99
    ∧ (∀ rv ∈ [reviewTen], rv.id ≠ 99)
    ∧ orphanRoot ∈ renderedComments [reviewTen] [zeroRoot, orphanRoot] := by
  refine ⟨rfl, by decide, rfl, by decide, by decide⟩

/-- C10 amended: provided no comment in the input has id 0, every root
comment (JS-falsy `in_reply_to_id`) whose `pull_request_review_id` is
non-null but matches no supplied review is omitted from the
threaded-with-reviews output entirely — it appears neither under any review
section nor under the Standalone Comments group. -/
theorem c10_amended (reviews : List PullRequestReview)
    (comments : List PullRequestReviewComment) (c : PullRequestReviewComment) (r : Nat)
    (hnz : ∀ d ∈ comments, d.id ≠ 0)
    (_hc : c ∈ comments) (hroot : jsTruthyN c.in_reply_to_id = false)
    (hrv : c.pull_request_review_id = some r)
    (hnomatch : ∀ rv ∈ reviews, rv.id ≠ r) :
    c ∉ renderedComments reviews comments := by
  intro hmem
  rw [renderedComments, allTrees, mem_flattenForest] at hmem
  obtain ⟨t, ht, hct⟩ := hmem
  rw [List.mem_append] at ht
  have hroot2 : ∃ t0 rid, (t0 ∈ groupFor comments rid ∧
      (rid = none ∨ ∃ rv ∈ reviews, rid = some rv.id)) ∧
      t = buildTree comments comments.length t0 := by
    rcases ht with ht | ht
    · rw [List.mem_flatten] at ht
      obtain ⟨l, hl, htl⟩ := ht
      rw [List.mem_map] at hl
      obtain ⟨rv, hrvm, rfl⟩ := hl
      rw [threadForest, List.mem_map] at htl
      obtain ⟨t0, ht0, rfl⟩ := htl
      exact ⟨t0, some rv.id, ⟨ht0, Or.inr ⟨rv, hrvm, rfl⟩⟩, rfl⟩
    · rw [threadForest, List.mem_map] at ht
      obtain ⟨t0, ht0, rfl⟩ := ht
      exact ⟨t0, none, ⟨ht0, Or.inl rfl⟩, rfl⟩
  obtain ⟨t0, rid, ⟨ht0, hrid⟩, rfl⟩ := hroot2
  have h0 := mem_groupFor.mp ht0
  rcases mem_of_mem_buildTree h0.1 hct with rfl | ⟨p, hp, _, hrep⟩
  · -- c is the top of the group tree: its review id would have to match
    rcases hrid with rfl | ⟨rv, hrvm, rfl⟩
    · rw [hrv] at h0
      cases h0.2.2
    · rw [hrv] at h0
      exact hnomatch rv hrvm (Option.some.inj h0.2.2.symm)
  · -- c is a reply inside the tree: its parent id would have to be 0
    rcases hrepcase : c.in_reply_to_id with _ | k
    · rw [hrepcase] at hrep
      cases hrep
    · rw [hrepcase] at hrep
      have hk0 : k = 0 := by
        rw [hrepcase] at hroot
        simpa [jsTruthyN] using hroot
      rw [hk0] at hrep
      exact hnz p hp (Option.some.inj hrep).symm

/-- C10 witness: with all ids non-zero, the root whose review id 99 matches
no supplied review is omitted from the rendered output. -/
theorem c10_witness :
    orphanRoot ∉ renderedComments [reviewTen] [orphanRoot, wParent] :=
  c10_amended [reviewTen] [orphanRoot, wParent] orphanRoot 99
    (by decide) (by decide) (by decide) (by decide) (by decide)

/-- C9 counterexample: pairwise-distinct ids do NOT guarantee termination of
the threaded recursion. With ids 1 and 0, the id-0 comment replies to
comment 1 while comment 1 carries `in_reply_to_id` 0 — JS-falsy, so it is a
root — and `getReplies 0` finds comment 1 again: the recursion revisits the
root forever. In the fuel model the set of comments the rendering visits
keeps growing as the fuel grows past the input length (and the rendered
string is exactly the rendering of that growing tree), so the source
recursion does not terminate. -/
theorem c9_counterexample :
    (([loopRoot, loopZero].map PullRequestReviewComment.id).Nodup)
    ∧ loopRoot ∈ rootComments [loopRoot, loopZero]
    ∧ flattenTree (buildTree [loopRoot, loopZero] 2 loopRoot) ≠
        flattenTree (buildTree [loopRoot, loopZero] 3 loopRoot)
    ∧ (∀ fuel, formatCommentWithReplies collabOne [loopRoot, loopZero] fuel loopRoot 0 =
        treeStr collabOne (buildTree [loopRoot, loopZero] fuel loopRoot) 0) := by
  refine ⟨by decide, by decide, by decide,
    fun fuel => formatCommentWithReplies_eq_treeStr collabOne [loopRoot, loopZero] fuel loopRoot 0⟩

/-- C9 amended: the threaded recursion terminates provided the comment ids
are pairwise distinct AND non-zero: any repetition on a reply path would
force two ancestors to share an id or a reply chain to re-enter a JS-falsy
(0) reference, so every reply path is bounded by the input length and the
rendering is independent of any fuel of at least that length. -/
theorem c9_amended (E : Collab) (comments : List PullRequestReviewComment)
    (c : PullRequestReviewComment) (fuel1 fuel2 : Nat)
    (hnodup : (comments.map PullRequestReviewComment.id).Nodup)
    (hnz : ∀ d ∈ comments, d.id ≠ 0)
    (hroot : c ∈ rootComments comments)
    (hf1 : comments.length ≤ fuel1) (hf2 : comments.length ≤ fuel2) :
    formatCommentWithReplies E comments fuel1 c 0 =
      formatCommentWithReplies E comments fuel2 c 0 := by
  rw [formatCommentWithReplies_eq_treeStr, formatCommentWithReplies_eq_treeStr]
  have hinj : ∀ a ∈ comments, ∀ b ∈ comments, a.id = b.id → a = b := by
    intro a ha b hb hab
    exact List.inj_on_of_nodup_map hnodup ha hb hab
  have hchar := mem_rootComments.mp hroot
  have := buildTree_stab hinj hnz fuel1 fuel2 c []
    (Linked.single c hchar.2) (List.nodup_singleton c)
    (by intro x hx; rcases List.mem_singleton.mp hx with rfl; exact hchar.1)
    (by simp; omega) (by simp; omega)
  rw [this]

/-- C9 witness: with distinct non-zero ids the rendering is the same at fuel
2 and fuel 5. -/
theorem c9_witness :
    formatCommentWithReplies collabOne [wParent, wReply] 2 wParent 0 =
      formatCommentWithReplies collabOne [wParent, wReply] 5 wParent 0 :=
  c9_amended collabOne [wParent, wReply] wParent 2 5
    (by decide) (by decide) (by decide) (by decide) (by decide)

theorem exists_root_of_mem_allTrees {reviews : List PullRequestReview}
    {comments : List PullRequestReviewComment} {t : CTree}
    (ht : t ∈ allTrees reviews comments) :
    ∃ t0, t0 ∈ rootComments comments ∧ t = buildTree comments comments.length t0 := by
  rw [allTrees, List.mem_append] at ht
  rcases ht with ht | ht
  · rw [List.mem_flatten] at ht
    obtain ⟨l, hl, htl⟩ := ht
    rw [List.mem_map] at hl
    obtain ⟨rv, _, rfl⟩ := hl
    rw [threadForest, List.mem_map] at htl
    obtain ⟨t0, ht0, rfl⟩ := htl
    have h0 := mem_groupFor.mp ht0
    exact ⟨t0, mem_rootComments.mpr ⟨h0.1, h0.2.1⟩, rfl⟩
  · rw [threadForest, List.mem_map] at ht
    obtain ⟨t0, ht0, rfl⟩ := ht
    have h0 := mem_groupFor.mp ht0
    exact ⟨t0, mem_rootComments.mpr ⟨h0.1, h0.2.1⟩, rfl⟩

/-- C1 counterexample: comment 2 replies to comment 1, which IS in the input
set, yet in the threaded-with-reviews mode nothing is rendered at all
(comment 1 has a dangling non-zero `in_reply_to_id`, so it is not a root and
is dropped, taking its whole reply subtree with it) — so a comment whose
reference resolves within the input set is not necessarily rendered as a
child of the referenced comment. -/
theorem c1_counterexample :
    cxReply.in_reply_to_id = some cxDangling.id
    ∧ cxDangling ∈ [cxDangling, cxReply]
    ∧ renderedComments [reviewTen] [cxDangling, cxReply] = [] := by
  refine ⟨rfl, by decide, by decide⟩

/-- C1 amended: in the threaded-with-reviews mode, provided the comment ids
are pairwise distinct and non-zero: the output is the reviews in input order
(each with its grouped root-comment trees) followed by the standalone group;
a root is a comment with JS-falsy `in_reply_to_id`, grouped by
`pull_request_review_id`; every comment whose `in_reply_to_id` equals the id
of a RENDERED comment is rendered as a child of the node of that comment
(a resolvable reply whose parent is itself dropped is not rendered); and the
recursive renderer is the rendering of exactly these trees. -/
theorem c1_amended (E : Collab) (owner repo : String) (prId : Int)
    (rf : Option String) (reviews : List PullRequestReview)
    (comments : List PullRequestReviewComment)
    (hnodup : (comments.map PullRequestReviewComment.id).Nodup)
    (hnz : ∀ d ∈ comments, d.id ≠ 0)
    (hrev : reviews ≠ []) :
    (formatCommentsWithReviews E owner repo prId reviews comments ⟨true, true, rf⟩ =
      wrHeader E owner repo prId reviews.length comments.length
          (totalTokensWR E reviews comments) ++
        threadedReviewSections E comments 1 reviews ++ standaloneSection E comments)
    ∧ (∀ (rv : PullRequestReview) (c : PullRequestReviewComment),
        c ∈ groupFor comments (some rv.id) ↔
        c ∈ comments ∧ jsTruthyN c.in_reply_to_id = false ∧
          c.pull_request_review_id = some rv.id)
    ∧ (∀ (c : PullRequestReviewComment), c ∈ groupFor comments none ↔
        c ∈ comments ∧ jsTruthyN c.in_reply_to_id = false ∧
          c.pull_request_review_id = none)
    ∧ (∀ (p c : PullRequestReviewComment), p ∈ renderedComments reviews comments →
        c ∈ comments → c.in_reply_to_id = some p.id →
        edgeInForest (allTrees reviews comments) p c = true)
    ∧ (∀ (c : PullRequestReviewComment) (fuel : Nat),
        formatCommentWithReplies E comments fuel c 0 =
          treeStr E (buildTree comments fuel c) 0) := by
  refine ⟨?_, ?_, ?_, ?_, ?_⟩
  · simp [formatCommentsWithReviews, hrev]
  · intro rv c
    exact mem_groupFor
  · intro c
    exact mem_groupFor
  · intro p c hp hc hrep
    have hinj : ∀ a ∈ comments, ∀ b ∈ comments, a.id = b.id → a = b := by
      intro a ha b hb hab
      exact List.inj_on_of_nodup_map hnodup ha hb hab
    rw [renderedComments, mem_flattenForest] at hp
    obtain ⟨t, ht, hpt⟩ := hp
    obtain ⟨t0, ht0, rfl⟩ := exists_root_of_mem_allTrees ht
    have hchar := mem_rootComments.mp ht0
    have hedge := expand_edge hinj hnz comments.length t0 []
      (Linked.single t0 hchar.2) (List.nodup_singleton t0)
      (by intro x hx; rcases List.mem_singleton.mp hx with rfl; exact hchar.1)
      (by simp) p c hpt (mem_getReplies.mpr ⟨hc, hrep⟩)
    exact edge_of_mem_forest ht hedge
  · intro c fuel
    exact formatCommentWithReplies_eq_treeStr E comments fuel c 0

/-- C1 witness: with reviews present, distinct non-zero ids, the reply with
`in_reply_to_id` 1 is rendered as a child of the rendered root comment 1,
and the concrete render decomposes into review sections plus standalone. -/
theorem c1_witness :
    edgeInForest (allTrees [reviewTen] [wParent, wReply]) wParent wReply = true
    ∧ formatCommentsWithReviews collabOne "o" "r" 7 [reviewTen] [wParent, wReply]
        ⟨true, true, none⟩ =
      wrHeader collabOne "o" "r" 7 [reviewTen].length [wParent, wReply].length
          (totalTokensWR collabOne [reviewTen] [wParent, wReply]) ++
        threadedReviewSections collabOne [wParent, wReply] 1 [reviewTen] ++
        standaloneSection collabOne [wParent, wReply] :=
  ⟨(c1_amended collabOne "o" "r" 7 none [reviewTen] [wParent, wReply]
      (by decide) (by decide) (by decide)).2.2.2.1 wParent wReply
      (by decide) (by decide) rfl,
   (c1_amended collabOne "o" "r" 7 none [reviewTen] [wParent, wReply]
      (by decide) (by decide) (by decide)).1⟩

/-- C3: the fetch operations issue exactly ONE upstream request and return
only the items of that first response, never following the advertised
continuation link: on a two-page upstream response of 100 + 100 items with
page 1 advertising a next page, the result is the 100 items of page 1, not
a 200-item concatenation; and the result of each fetcher depends only on
the transport answer at the single page-1 URL. The own test suite of the
repository (Pagination Support, tests/issue.test.ts) expects 200
concatenated items from exactly this fixture shape. -/
theorem c3_no_pagination :
    (httpTwoPage (issueCommentsUrl "o" "r" 123)).nextLink = some page2Url
    ∧ (httpTwoPage page2Url).ok = true
    ∧ (httpTwoPage page2Url).data.length = 100
    ∧ fetchIssueComments httpTwoPage "o" "r" 123 =
        .ok (List.replicate 100 (mkIssueComment 1))
    ∧ (List.replicate 100 (mkIssueComment 1)).length = 100
    ∧ (∀ http1 http2 (owner repo : String) (n : Int),
        http1 (issueCommentsUrl owner repo n) = http2 (issueCommentsUrl owner repo n) →
        fetchIssueComments http1 owner repo n = fetchIssueComments http2 owner repo n)
    ∧ (∀ http1 http2 (owner repo : String) (n : Int),
        http1 (prCommentsUrl owner repo n) = http2 (prCommentsUrl owner repo n) →
        fetchPullRequestComments http1 owner repo n = fetchPullRequestComments http2 owner repo n)
    ∧ (∀ http1 http2 (owner repo : String) (n : Int),
        http1 (prReviewsUrl owner repo n) = http2 (prReviewsUrl owner repo n) →
        fetchPullRequestReviews http1 owner repo n = fetchPullRequestReviews http2 owner repo n) := by
  refine ⟨rfl, ?_, ?_, ?_, by simp, ?_, ?_, ?_⟩
  · rw [httpTwoPage]
    rw [if_neg (by decide), if_pos rfl]
  · rw [httpTwoPage]
    rw [if_neg (by decide), if_pos rfl]
    simp
  · rw [fetchIssueComments, httpTwoPage]
    rw [if_pos rfl]
    rfl
  · intro http1 http2 owner repo n h
    simp only [fetchIssueComments, h]
  · intro http1 http2 owner repo n h
    simp only [fetchPullRequestComments, h]
  · intro http1 http2 owner repo n h
    simp only [fetchPullRequestReviews, h]

/-- C3 witness: the single-request dependence applied at two concrete
transports that agree on the page-1 URL but disagree elsewhere. -/
theorem c3_witness :
    fetchIssueComments httpTwoPage "o" "r" 123 =
      fetchIssueComments
        (fun url => if url = issueCommentsUrl "o" "r" 123
          then httpTwoPage (issueCommentsUrl "o" "r" 123)
          else ⟨false, 500, "Server Error", "boom", [], none⟩) "o" "r" 123 :=
  (c3_no_pagination).2.2.2.2.2.1 httpTwoPage
    (fun url => if url = issueCommentsUrl "o" "r" 123
      then httpTwoPage (issueCommentsUrl "o" "r" 123)
      else ⟨false, 500, "Server Error", "boom", [], none⟩) "o" "r" 123 (by simp)
